import Mathlib

/-!
Verification of the wikidata-orthologs-bot pipeline (oma.py and omarallel.py).

The two Python scripts are shallowly embedded as pure Lean functions.
External effects (the Wikidata read API and the OMA URL liveness probe)
are modelled as oracles bundled in a `KnowledgeBase` record, and every
call to an oracle is logged in the state so that call-count properties
(per-gene fetch caching, per-URL probe caching) can be stated.
-/

namespace OrthoBot

abbrev GeneId := String
abbrev EntityId := String
abbrev Url := String

/-- One element of the `claims[P688]` list of a gene entity, keeping only the
two access chains the scripts read: `["mainsnak"]["datavalue"]["value"]["id"]`
(collapsed to `mainsnakId`, `none` when any level of the nesting is missing,
which raises in Python) and
`["references"][0]["snaks"][P352][0]["datavalue"]["value"]` (collapsed to
`uniprotAcc`, likewise `none` on any missing level). -/
structure EncodesClaim where
  mainsnakId : Option String
  uniprotAcc : Option String
deriving DecidableEq, Repr

/-- One row of an orthologs CSV file: the `gene1` and `gene2` columns,
already stringified (`str(row["gene1"])`). -/
structure OrthologRow where
  gene1 : GeneId
  gene2 : GeneId
deriving DecidableEq, Repr

/-- The external oracles: `fetchEncodes w` models
`WDItemEngine(wd_item_id=w).get_wd_json_representation()["claims"][P688]`
(`none` = any exception in that expression), and `urlLive u` models the
result of `is_oma_url_valid(u)` (a `requests.head` probe). -/
structure KnowledgeBase where
  fetchEncodes : EntityId → Option (List EncodesClaim)
  urlLive : Url → Bool

/-- Association-list lookup, modelling a Python dict read. -/
def alookup {β : Type} : List (GeneId × β) → GeneId → Option β
  | [], _ => none
  | (k, v) :: rest, g => if k = g then some v else alookup rest g

/-- Number of occurrences of `x` in a call log. -/
def countOcc (x : String) : List String → Nat
  | [] => 0
  | y :: rest => (if y = x then 1 else 0) + countOcc x rest

/-- Python's `s.endswith(p)`. -/
def endsWithStr (s p : String) : Bool :=
  let sl := s.toList
  let pl := p.toList
  if pl.length ≤ sl.length then sl.drop (sl.length - pl.length) == pl else false

/-- Attempt to match the regex `orthologs_(\d+)-(\d+)\.csv` at the start of
`cs`.  Both `\d+` groups are greedy; since each is followed by a non-digit
character in the pattern, greedy matching without backtracking is exact. -/
def matchTaxonAt (cs : List Char) : Option (String × String) :=
  let header := "orthologs_".toList
  if cs.take header.length = header then
    let rest := cs.drop header.length
    let d1 := rest.takeWhile Char.isDigit
    let rest1 := rest.dropWhile Char.isDigit
    if d1.isEmpty then none
    else
      match rest1 with
      | '-' :: rest2 =>
        let d2 := rest2.takeWhile Char.isDigit
        let rest3 := rest2.dropWhile Char.isDigit
        if d2.isEmpty then none
        else if rest3.take 4 = ".csv".toList then some (String.mk d1, String.mk d2)
        else none
      | _ => none
  else none

/-- Search semantics of `re.search` for the taxon pattern: leftmost starting match. -/
def searchTaxon : List Char → Option (String × String)
  | [] => none
  | c :: rest =>
    match matchTaxonAt (c :: rest) with
    | some r => some r
    | none => searchTaxon rest

/-- The call `pattern.search(filename)` for `orthologs_(\d+)-(\d+)\.csv`. -/
def matchTaxonSearch (s : String) : Option (String × String) :=
  searchTaxon s.toList

/-- Extraction of `prot[0]["mainsnak"]...` and `prot[0]["references"][0]...`
from an encodes-claim list; `none` models the `except` branch (empty list or
missing nesting). -/
def extractProt (claims : List EncodesClaim) : Option (EntityId × String) :=
  match claims with
  | [] => none
  | c :: _ =>
    match c.mainsnakId, c.uniprotAcc with
    | some wdid, some up => some (wdid, up)
    | _, _ => none

/-- The derived URL `https://omabrowser.org/oma/vps/<uniprot>/`. -/
def deriveOmaUrl (uniprot : String) : Url :=
  "https://omabrowser.org/oma/vps/" ++ uniprot ++ "/"

/-- The record appended to `valid_orthos` in `oma.py`. -/
structure ValidatedPair where
  gene1 : GeneId
  gene2 : GeneId
  gene1Wdid : EntityId
  gene2Wdid : EntityId
  prot1Wdid : EntityId
  prot2Wdid : EntityId
  prot1Uniprot : String
  prot2Uniprot : String
  taxon1Wdid : EntityId
  taxon2Wdid : EntityId
  oma_url1 : Url
  oma_url2 : Url
deriving DecidableEq, Repr

/-- The mutable state of `oma.py`'s `main`: the accumulators
`valid_orthos`, `oma_url_found`, `wd_items`, `errors`, plus two
instrumentation logs recording every knowledge-base fetch (by the gene that
triggered it) and every URL probe, in call order. -/
structure OmaState where
  validOrthos : List ValidatedPair
  omaUrlFound : List Url
  wdItems : List (GeneId × List EncodesClaim)
  errors : List (String × String)
  fetchLog : List GeneId
  probeLog : List Url
deriving DecidableEq, Repr

/-- Lines 167-178 (and symmetrically 180-191) of `oma.py`: look the gene up
in the `wd_items` cache; on a miss fetch its encodes claims from the
knowledge base, recording `missing_encodes_infos` and
`pairs_lost_due_to_missing_prot_info` (keyed by `gene1 + gene2`, passed in as
`pairKey`) on failure and inserting into the cache on success.  Returns the
claims obtained (`none` = the row's `continue` was taken). -/
def fetchStage (kb : KnowledgeBase) (w : EntityId) (g : GeneId) (pairKey : String)
    (st : OmaState) : Option (List EncodesClaim) × OmaState :=
  match alookup st.wdItems g with
  | some cl => (some cl, st)
  | none =>
    let st1 := { st with fetchLog := st.fetchLog ++ [g] }
    match kb.fetchEncodes w with
    | none =>
      (none, { st1 with errors := st1.errors ++
        [("missing_encodes_infos", g), ("pairs_lost_due_to_missing_prot_info", pairKey)] })
    | some cl => (some cl, { st1 with wdItems := st1.wdItems ++ [(g, cl)] })

/-- Lines 216-221 (and 223-228) of `oma.py`: if the URL is not in
`oma_url_found`, probe it; a dead probe records `oma_url_not_found` and
returns `false` (the row's `continue`), a live probe adds the URL to
`oma_url_found`. -/
def urlStage (kb : KnowledgeBase) (u : Url) (st : OmaState) : Bool × OmaState :=
  if u ∈ st.omaUrlFound then (true, st)
  else
    let st1 := { st with probeLog := st.probeLog ++ [u] }
    if kb.urlLive u then (true, { st1 with omaUrlFound := st1.omaUrlFound ++ [u] })
    else (false, { st1 with errors := st1.errors ++ [("oma_url_not_found", u)] })

/-- Lines 213-323 of `oma.py`: derive the two OMA URLs, validate them in
order with the per-run cache, and on success append the validated pair. -/
def rowStage4 (kb : KnowledgeBase) (t1w t2w : EntityId) (g1 g2 : GeneId)
    (wd1 wd2 : EntityId) (p1w p2w : EntityId) (p1u p2u : String)
    (st : OmaState) : OmaState :=
  let url1 := deriveOmaUrl p1u
  let url2 := deriveOmaUrl p2u
  match urlStage kb url1 st with
  | (false, st1) => st1
  | (true, st1) =>
    match urlStage kb url2 st1 with
    | (false, st2) => st2
    | (true, st2) =>
      { st2 with validOrthos := st2.validOrthos ++
        [⟨g1, g2, wd1, wd2, p1w, p2w, p1u, p2u, t1w, t2w, url1, url2⟩] }

/-- Lines 193-211 of `oma.py`: record the `more_than_1_encodes` warnings,
then extract the protein entity id and UniProt accession from each gene's
first encodes claim, recording `missing_encodes_infos` (only) on an
extraction failure. -/
def rowStage3 (kb : KnowledgeBase) (t1w t2w : EntityId) (g1 g2 : GeneId)
    (wd1 wd2 : EntityId) (prot1 prot2 : List EncodesClaim)
    (st : OmaState) : OmaState :=
  let warns := (if 1 < prot1.length then [("more_than_1_encodes", g1)] else []) ++
    (if 1 < prot2.length then [("more_than_1_encodes", g2)] else [])
  let st3 := { st with errors := st.errors ++ warns }
  match extractProt prot1 with
  | none => { st3 with errors := st3.errors ++ [("missing_encodes_infos", g1)] }
  | some (p1w, p1u) =>
    match extractProt prot2 with
    | none => { st3 with errors := st3.errors ++ [("missing_encodes_infos", g2)] }
    | some (p2w, p2u) => rowStage4 kb t1w t2w g1 g2 wd1 wd2 p1w p2w p1u p2u st3

/-- Lines 163-323 of `oma.py`: process one (already filter-kept) row.  The
mapper lookups cannot fail for kept rows; the fallback branch returns the
state unchanged. -/
def processRowOma (kb : KnowledgeBase) (mapper : GeneId → Option EntityId)
    (t1w t2w : EntityId) (st : OmaState) (row : OrthologRow) : OmaState :=
  match mapper row.gene1, mapper row.gene2 with
  | some wd1, some wd2 =>
    match fetchStage kb wd1 row.gene1 (row.gene1 ++ row.gene2) st with
    | (none, st1) => st1
    | (some prot1, st1) =>
      match fetchStage kb wd2 row.gene2 (row.gene1 ++ row.gene2) st1 with
      | (none, st2) => st2
      | (some prot2, st2) =>
        rowStage3 kb t1w t2w row.gene1 row.gene2 wd1 wd2 prot1 prot2 st2
  | _, _ => st

/-- One input file: its name and the result of `pd.read_csv`
(`none` = the read raised). -/
structure FileInput where
  filename : String
  rows : Option (List OrthologRow)
deriving DecidableEq, Repr

/-- Lines 126-323 of `oma.py`: process one directory entry.  Non-`.csv`
names are ignored; an unreadable file records `error_loading_files`; a name
without the taxon pattern is skipped (`continue`); an unmapped taxon records
`taxon_not_found` and skips the file; otherwise the unmapped gene ids of
both columns are recorded under `gene_not_found`, the rows with both genes
mapped are kept, and each kept row is processed. -/
def processFileOma (kb : KnowledgeBase) (mapper : GeneId → Option EntityId)
    (taxonMap : String → Option EntityId) (st : OmaState) (file : FileInput) : OmaState :=
  if endsWithStr file.filename ".csv" then
    match file.rows with
    | none => { st with errors := st.errors ++ [("error_loading_files", file.filename)] }
    | some df =>
      match matchTaxonSearch file.filename with
      | none => st
      | some (t1, t2) =>
        match taxonMap t1 with
        | none => { st with errors := st.errors ++ [("taxon_not_found", t1)] }
        | some t1w =>
          match taxonMap t2 with
          | none => { st with errors := st.errors ++ [("taxon_not_found", t2)] }
          | some t2w =>
            let missing1 := (df.map OrthologRow.gene1).filter (fun g => (mapper g).isNone)
            let missing2 := (df.map OrthologRow.gene2).filter (fun g => (mapper g).isNone)
            let notFound := missing1.map (fun g => ("gene_not_found", g)) ++
              missing2.map (fun g => ("gene_not_found", g))
            let st0 := { st with errors := st.errors ++ notFound }
            let kept := df.filter (fun r => (mapper r.gene1).isSome && (mapper r.gene2).isSome)
            kept.foldl (processRowOma kb mapper t1w t2w) st0
  else st

/-- The empty accumulators at the start of a run. -/
def initState : OmaState := ⟨[], [], [], [], [], []⟩

/-- The Process phase of `oma.py`: the loop over the input directory. -/
def runFilesOma (kb : KnowledgeBase) (mapper : GeneId → Option EntityId)
    (taxonMap : String → Option EntityId) (files : List FileInput) : OmaState :=
  files.foldl (processFileOma kb mapper taxonMap) initState

/-- The final state together with the rows of `valid_ortholog_pairs.csv`. -/
structure RunOutput where
  finalState : OmaState
  csvRows : List ValidatedPair
deriving DecidableEq, Repr

/-- The entry point `main` of `oma.py`: the `WDUSER`/`WDPASS` check of lines 91-95 is
performed unconditionally, before any file is read, whatever the value of
the `--write` flag; a missing variable raises `ValueError`, aborting the run
with no CSV written.  On success the file loop runs and the audit CSV holds
the accumulated `valid_orthos`. -/
def mainOma (write : Bool) (env : String → Option String) (kb : KnowledgeBase)
    (mapper : GeneId → Option EntityId) (taxonMap : String → Option EntityId)
    (files : List FileInput) : Except String RunOutput :=
  if (env "WDUSER").isSome && (env "WDPASS").isSome then
    let st := runFilesOma kb mapper taxonMap files
    .ok ⟨st, st.validOrthos⟩
  else
    .error "WDUSER and WDPASS must be specified in `.env` file or as environment variables"

/-! ## The parallel variant, `omarallel.py` -/

/-- The success record of `omarallel.py`'s `process_row` (no taxon fields). -/
structure ParPair where
  gene1 : GeneId
  gene2 : GeneId
  gene1Wdid : EntityId
  gene2Wdid : EntityId
  prot1Wdid : EntityId
  prot2Wdid : EntityId
  prot1Uniprot : String
  prot2Uniprot : String
  oma_url1 : Url
  oma_url2 : Url
deriving DecidableEq, Repr

/-- The dict returned by `process_row`, plus instrumentation logs of the
knowledge-base fetches (by gene) and URL probes the call performed. -/
structure RowResult where
  data : Option ParPair
  errors : List (String × String)
  fetchLog : List GeneId
  probeLog : List Url
deriving DecidableEq, Repr

/-- Lines 41-117 of `omarallel.py`.  Note the success branch returns
`"errors": {}`, discarding any `more_than_1_encodes` warnings collected at
lines 71-76; the warnings reach the caller only when the row later fails. -/
def process_row (mapper : GeneId → Option EntityId) (kb : KnowledgeBase)
    (row : OrthologRow) : RowResult :=
  let g1 := row.gene1
  let g2 := row.gene2
  match mapper g1 with
  | none => ⟨none, [("genes_not_found", g1)], [], []⟩
  | some wd1 =>
    match mapper g2 with
    | none => ⟨none, [("genes_not_found", g2)], [], []⟩
    | some wd2 =>
      match kb.fetchEncodes wd1 with
      | none => ⟨none, [("missing_encodes_infos", g1)], [g1], []⟩
      | some prot1 =>
        match kb.fetchEncodes wd2 with
        | none => ⟨none, [("missing_encodes_infos", g2)], [g1, g2], []⟩
        | some prot2 =>
          let warns := (if 1 < prot1.length then [("more_than_1_encodes", g1)] else [])
                    ++ (if 1 < prot2.length then [("more_than_1_encodes", g2)] else [])
          match extractProt prot1 with
          | none => ⟨none, warns ++ [("missing_encodes_infos", g1)], [g1, g2], []⟩
          | some (p1w, p1u) =>
            match extractProt prot2 with
            | none => ⟨none, warns ++ [("missing_encodes_infos", g2)], [g1, g2], []⟩
            | some (p2w, p2u) =>
              let url1 := deriveOmaUrl p1u
              let url2 := deriveOmaUrl p2u
              if kb.urlLive url1 = false then
                ⟨none, warns ++ [("oma_url_not_found", url1)], [g1, g2], [url1]⟩
              else if kb.urlLive url2 = false then
                ⟨none, warns ++ [("oma_url_not_found", url2)], [g1, g2], [url1, url2]⟩
              else
                ⟨some ⟨g1, g2, wd1, wd2, p1w, p2w, p1u, p2u, url1, url2⟩,
                  [], [g1, g2], [url1, url2]⟩

/-- The accumulators of `omarallel.py`'s `__main__` block, with the joined
instrumentation logs of all processed rows. -/
structure ParState where
  validOrthos : List ParPair
  combinedErrors : List (String × String)
  errorLoadingFiles : List String
  fetchLog : List GeneId
  probeLog : List Url
deriving DecidableEq, Repr

/-- Lines 32-38 of `omarallel.py`: `aggregate_results`. -/
def aggregate_results (results : List RowResult)
    (valid : List ParPair) (combined : List (String × String)) :
    List ParPair × List (String × String) :=
  results.foldl
    (fun acc r =>
      (match r.data with
       | some d => acc.1 ++ [d]
       | none => acc.1,
       acc.2 ++ r.errors))
    (valid, combined)

/-- Lines 133-145 of `omarallel.py`: process one directory entry.  Non-`.csv`
names are ignored; an unreadable file is recorded in `error_loading_files`;
otherwise every row is mapped through `process_row` and the results
aggregated. -/
def processFilePar (mapper : GeneId → Option EntityId) (kb : KnowledgeBase)
    (st : ParState) (file : FileInput) : ParState :=
  if endsWithStr file.filename ".csv" then
    match file.rows with
    | none => { st with errorLoadingFiles := st.errorLoadingFiles ++ [file.filename] }
    | some df =>
      let results := df.map (process_row mapper kb)
      let agg := aggregate_results results st.validOrthos st.combinedErrors
      { st with validOrthos := agg.1, combinedErrors := agg.2,
                fetchLog := st.fetchLog ++ (results.map RowResult.fetchLog).flatten,
                probeLog := st.probeLog ++ (results.map RowResult.probeLog).flatten }
  else st

/-- The empty accumulators of the parallel run. -/
def initParState : ParState := ⟨[], [], [], [], []⟩

/-- The file loop of `omarallel.py`'s `__main__` block. -/
def runFilesPar (mapper : GeneId → Option EntityId) (kb : KnowledgeBase)
    (files : List FileInput) : ParState :=
  files.foldl (processFilePar mapper kb) initParState

/-! ## Concrete test fixtures -/

/-- A well-formed encodes claim. -/
def goodClaim (wdid up : String) : EncodesClaim := ⟨some wdid, some up⟩

/-- A small identifier map: genes `A`, `B`, `C` are mapped, all others not. -/
def mapperT : GeneId → Option EntityId := fun g =>
  if g = "A" then some "WA"
  else if g = "B" then some "WB"
  else if g = "C" then some "WC"
  else none

/-- A small taxon map for `orthologs_1-2.csv`. -/
def taxT : String → Option EntityId := fun t =>
  if t = "1" then some "T1" else if t = "2" then some "T2" else none

/-- The row `(A, B)`. -/
def rAB : OrthologRow := ⟨"A", "B"⟩

def urlUA : Url := deriveOmaUrl "UA"
def urlUB : Url := deriveOmaUrl "UB"

/-- Both genes resolve cleanly and every URL is live. -/
def kbAllGood : KnowledgeBase :=
  ⟨fun w =>
    if w = "WA" then some [goodClaim "PA" "UA"]
    else if w = "WB" then some [goodClaim "PB" "UB"]
    else none,
   fun _ => true⟩

/-- As `kbAllGood` but gene A's derived URL is dead. -/
def kbDeadUrlA : KnowledgeBase :=
  ⟨fun w =>
    if w = "WA" then some [goodClaim "PA" "UA"]
    else if w = "WB" then some [goodClaim "PB" "UB"]
    else none,
   fun u => if u = urlUA then false else true⟩

/-- As `kbAllGood` but fetching gene A's entity raises. -/
def kbFetchFailA : KnowledgeBase :=
  ⟨fun w => if w = "WB" then some [goodClaim "PB" "UB"] else none,
   fun _ => true⟩

/-- Gene A's entity fetch succeeds but its claim has no extractable
mainsnak/reference nesting; gene B resolves cleanly. -/
def kbExtractFailA : KnowledgeBase :=
  ⟨fun w =>
    if w = "WA" then some [⟨none, none⟩]
    else if w = "WB" then some [goodClaim "PB" "UB"]
    else none,
   fun _ => true⟩

/-- Gene A's entity carries two encodes claims (both well-formed); gene B
resolves cleanly; every URL is live. -/
def kbTwoEncodesA : KnowledgeBase :=
  ⟨fun w =>
    if w = "WA" then some [goodClaim "PA" "UA", goodClaim "PA2" "UA2"]
    else if w = "WB" then some [goodClaim "PB" "UB"]
    else none,
   fun _ => true⟩

/-- A well-formed input file holding the row `(A, B)` twice. -/
def fOkTwice : FileInput := ⟨"orthologs_1-2.csv", some [rAB, rAB]⟩

/-- A well-formed input file holding the row `(A, B)` once. -/
def fOkOnce : FileInput := ⟨"orthologs_1-2.csv", some [rAB]⟩

/-- A `.csv` file whose name does not contain the taxon pattern. -/
def fNoPattern : FileInput := ⟨"foo.csv", some [⟨"X", "B"⟩]⟩

/-- An environment with no variables set. -/
def envEmpty : String → Option String := fun _ => none

/-- An environment carrying both credentials. -/
def envFull : String → Option String := fun k =>
  if k = "WDUSER" then some "user" else if k = "WDPASS" then some "pass" else none

/-! ## Properties used by several claims -/

/-- A gene whose knowledge-base fetch succeeds: it is mapped and its mapped
entity's encodes claims are retrievable. -/
def goodGene (kb : KnowledgeBase) (mapper : GeneId → Option EntityId) (g : GeneId) : Prop :=
  ∃ w cl, mapper g = some w ∧ kb.fetchEncodes w = some cl

/-- Invariant behind the per-gene fetch cache of `oma.py`: a gene whose
fetch succeeds has been fetched at most once, and, if it has been fetched at
all, it is in the `wd_items` cache. -/
def fetchInv (kb : KnowledgeBase) (mapper : GeneId → Option EntityId) (st : OmaState) : Prop :=
  ∀ g, goodGene kb mapper g →
    countOcc g st.fetchLog ≤ 1 ∧
    (1 ≤ countOcc g st.fetchLog → (alookup st.wdItems g).isSome = true)

/-- Invariant behind the per-URL probe cache of `oma.py`: a live URL has
been probed at most once, and, if it has been probed at all, it is in
`oma_url_found`. -/
def probeInv (kb : KnowledgeBase) (st : OmaState) : Prop :=
  ∀ u, kb.urlLive u = true →
    countOcc u st.probeLog ≤ 1 ∧
    (1 ≤ countOcc u st.probeLog → u ∈ st.omaUrlFound)

/-- Every cached entry of `wd_items` is the result of a successful fetch of
the gene's mapped entity. -/
def cacheFaithful (kb : KnowledgeBase) (mapper : GeneId → Option EntityId)
    (st : OmaState) : Prop :=
  ∀ g cl, alookup st.wdItems g = some cl →
    ∃ w, mapper g = some w ∧ kb.fetchEncodes w = some cl

/-- Every URL in `oma_url_found` probed live. -/
def urlFaithful (kb : KnowledgeBase) (st : OmaState) : Prop :=
  ∀ u, u ∈ st.omaUrlFound → kb.urlLive u = true

/-- Success condition for one ortholog row, stated the way the spec states
it: both genes are mapped, both entity fetches and both protein extractions
succeed (each gene resolves to a `ProteinInfo`), and both derived URLs are
live. -/
def rowSucceedsB (kb : KnowledgeBase) (mapper : GeneId → Option EntityId)
    (row : OrthologRow) : Bool :=
  match mapper row.gene1 with
  | none => false
  | some w1 =>
    match mapper row.gene2 with
    | none => false
    | some w2 =>
      match kb.fetchEncodes w1 with
      | none => false
      | some c1 =>
        match kb.fetchEncodes w2 with
        | none => false
        | some c2 =>
          match extractProt c1 with
          | none => false
          | some p1 =>
            match extractProt c2 with
            | none => false
            | some p2 => kb.urlLive (deriveOmaUrl p1.2) && kb.urlLive (deriveOmaUrl p2.2)

/-! ## List helper lemmas -/

theorem countOcc_append (x : String) (l1 l2 : List String) :
    countOcc x (l1 ++ l2) = countOcc x l1 + countOcc x l2 := by
  induction l1 with
  | nil => simp [countOcc]
  | cons y t ih => simp [countOcc, ih, Nat.add_assoc]

theorem countOcc_single_ne (x y : String) (h : y ≠ x) : countOcc x [y] = 0 := by
  simp [countOcc, h]

theorem countOcc_single_eq (x : String) : countOcc x [x] = 1 := by
  simp [countOcc]

theorem alookup_append_of_none {β : Type} (l1 l2 : List (GeneId × β)) (g : GeneId)
    (h : alookup l1 g = none) : alookup (l1 ++ l2) g = alookup l2 g := by
  induction l1 with
  | nil => simp
  | cons p t ih =>
    rcases p with ⟨k, v⟩
    by_cases hk : k = g
    · simp [alookup, hk] at h
    · simp only [alookup, hk, if_false] at h
      simpa [alookup, hk] using ih h

theorem alookup_append_of_some {β : Type} (l1 l2 : List (GeneId × β)) (g : GeneId)
    (v : β) (h : alookup l1 g = some v) : alookup (l1 ++ l2) g = some v := by
  induction l1 with
  | nil => simp [alookup] at h
  | cons p t ih =>
    rcases p with ⟨k, w⟩
    by_cases hk : k = g
    · simp only [alookup, hk, if_true] at h ⊢
      simpa using h
    · simp only [alookup, hk, if_false] at h ⊢
      exact ih h

theorem alookup_single_eq {β : Type} (g : GeneId) (v : β) : alookup [(g, v)] g = some v := by
  simp [alookup]

theorem alookup_append_split {β : Type} (l1 l2 : List (GeneId × β)) (g : GeneId) (v : β)
    (h : alookup (l1 ++ l2) g = some v) :
    alookup l1 g = some v ∨ (alookup l1 g = none ∧ alookup l2 g = some v) := by
  cases h1 : alookup l1 g with
  | none => exact Or.inr ⟨rfl, by rwa [alookup_append_of_none l1 l2 g h1] at h⟩
  | some w =>
    left
    rw [alookup_append_of_some l1 l2 g w h1] at h
    exact h

/-! ## Stage characterization lemmas -/

theorem fetchStage_cases (kb : KnowledgeBase) (w : EntityId) (g : GeneId) (key : String)
    (st : OmaState) :
    (∃ cl, alookup st.wdItems g = some cl ∧ fetchStage kb w g key st = (some cl, st)) ∨
    (alookup st.wdItems g = none ∧ kb.fetchEncodes w = none ∧
      fetchStage kb w g key st = (none,
        { st with fetchLog := st.fetchLog ++ [g],
                  errors := st.errors ++ [("missing_encodes_infos", g),
                    ("pairs_lost_due_to_missing_prot_info", key)] })) ∨
    (∃ cl, alookup st.wdItems g = none ∧ kb.fetchEncodes w = some cl ∧
      fetchStage kb w g key st = (some cl,
        { st with fetchLog := st.fetchLog ++ [g],
                  wdItems := st.wdItems ++ [(g, cl)] })) := by
  cases hc : alookup st.wdItems g with
  | some cl =>
    exact Or.inl ⟨cl, rfl, by simp [fetchStage, hc]⟩
  | none =>
    cases hf : kb.fetchEncodes w with
    | none =>
      exact Or.inr (Or.inl ⟨rfl, rfl, by simp [fetchStage, hc, hf]⟩)
    | some cl =>
      exact Or.inr (Or.inr ⟨cl, rfl, rfl, by simp [fetchStage, hc, hf]⟩)

theorem urlStage_cases (kb : KnowledgeBase) (u : Url) (st : OmaState) :
    (u ∈ st.omaUrlFound ∧ urlStage kb u st = (true, st)) ∨
    (u ∉ st.omaUrlFound ∧ kb.urlLive u = true ∧
      urlStage kb u st = (true, { st with probeLog := st.probeLog ++ [u],
                                          omaUrlFound := st.omaUrlFound ++ [u] })) ∨
    (u ∉ st.omaUrlFound ∧ kb.urlLive u = false ∧
      urlStage kb u st = (false, { st with probeLog := st.probeLog ++ [u],
                                           errors := st.errors ++ [("oma_url_not_found", u)] })) := by
  by_cases hm : u ∈ st.omaUrlFound
  · exact Or.inl ⟨hm, by simp [urlStage, hm]⟩
  · cases hl : kb.urlLive u with
    | true => exact Or.inr (Or.inl ⟨hm, rfl, by simp [urlStage, hm, hl]⟩)
    | false => exact Or.inr (Or.inr ⟨hm, rfl, by simp [urlStage, hm, hl]⟩)

/-! ## Preservation of the fetch-cache invariant (claim C4) -/

theorem fetchInv_congr (kb : KnowledgeBase) (mapper : GeneId → Option EntityId)
    {st st' : OmaState} (h1 : st'.fetchLog = st.fetchLog) (h2 : st'.wdItems = st.wdItems)
    (h : fetchInv kb mapper st) : fetchInv kb mapper st' := by
  intro g hg
  rw [h1, h2]
  exact h g hg

theorem fetchStage_fetchInv (kb : KnowledgeBase) (mapper : GeneId → Option EntityId)
    (w : EntityId) (g : GeneId) (key : String) (st : OmaState)
    (hm : mapper g = some w) (h : fetchInv kb mapper st) :
    fetchInv kb mapper (fetchStage kb w g key st).2 := by
  rcases fetchStage_cases kb w g key st with ⟨cl, hc, he⟩ | ⟨hc, hf, he⟩ | ⟨cl, hc, hf, he⟩
  · rw [he]
    exact h
  · rw [he]
    intro g' hg'
    by_cases hgg : g' = g
    · subst hgg
      rcases hg' with ⟨w', cl', hm', hf'⟩
      obtain rfl : w' = w := by
        have h2 := hm.symm.trans hm'
        exact (Option.some.inj h2).symm
      rw [hf] at hf'
      cases hf'
    · have hq : countOcc g' (st.fetchLog ++ [g]) = countOcc g' st.fetchLog := by
        rw [countOcc_append, countOcc_single_ne _ _ (fun hh => hgg hh.symm), Nat.add_zero]
      constructor
      · show countOcc g' (st.fetchLog ++ [g]) ≤ 1
        rw [hq]
        exact (h g' hg').1
      · intro hle
        have hle' : 1 ≤ countOcc g' st.fetchLog := by
          have hle2 : 1 ≤ countOcc g' (st.fetchLog ++ [g]) := hle
          rwa [hq] at hle2
        exact (h g' hg').2 hle'
  · rw [he]
    intro g' hg'
    by_cases hgg : g' = g
    · subst hgg
      have hcnt0 : countOcc g' st.fetchLog = 0 := by
        by_contra hne
        have h1le : 1 ≤ countOcc g' st.fetchLog := Nat.one_le_iff_ne_zero.mpr hne
        have hs := (h g' hg').2 h1le
        rw [hc] at hs
        simp at hs
      constructor
      · show countOcc g' (st.fetchLog ++ [g']) ≤ 1
        rw [countOcc_append, hcnt0, countOcc_single_eq]
      · intro _
        show (alookup (st.wdItems ++ [(g', cl)]) g').isSome = true
        rw [alookup_append_of_none _ _ _ hc, alookup_single_eq]
        rfl
    · have hq : countOcc g' (st.fetchLog ++ [g]) = countOcc g' st.fetchLog := by
        rw [countOcc_append, countOcc_single_ne _ _ (fun hh => hgg hh.symm), Nat.add_zero]
      constructor
      · show countOcc g' (st.fetchLog ++ [g]) ≤ 1
        rw [hq]
        exact (h g' hg').1
      · intro hle
        have hle' : 1 ≤ countOcc g' st.fetchLog := by
          have hle2 : 1 ≤ countOcc g' (st.fetchLog ++ [g]) := hle
          rwa [hq] at hle2
        have hs := (h g' hg').2 hle'
        show (alookup (st.wdItems ++ [(g, cl)]) g').isSome = true
        cases hv : alookup st.wdItems g' with
        | none => rw [hv] at hs; simp at hs
        | some v =>
          rw [alookup_append_of_some _ _ _ _ hv]
          rfl

theorem urlStage_fetchLog (kb : KnowledgeBase) (u : Url) (st : OmaState) :
    (urlStage kb u st).2.fetchLog = st.fetchLog := by
  by_cases hm : u ∈ st.omaUrlFound
  · simp [urlStage, hm]
  · cases hl : kb.urlLive u <;> simp [urlStage, hm, hl]

theorem urlStage_wdItems (kb : KnowledgeBase) (u : Url) (st : OmaState) :
    (urlStage kb u st).2.wdItems = st.wdItems := by
  by_cases hm : u ∈ st.omaUrlFound
  · simp [urlStage, hm]
  · cases hl : kb.urlLive u <;> simp [urlStage, hm, hl]

theorem rowStage4_preserve (kb : KnowledgeBase) (t1 t2 : EntityId) (g1 g2 : GeneId)
    (wd1 wd2 p1w p2w : EntityId) (p1u p2u : String) (st : OmaState) :
    (rowStage4 kb t1 t2 g1 g2 wd1 wd2 p1w p2w p1u p2u st).fetchLog = st.fetchLog ∧
    (rowStage4 kb t1 t2 g1 g2 wd1 wd2 p1w p2w p1u p2u st).wdItems = st.wdItems := by
  unfold rowStage4
  dsimp only
  rcases h1 : urlStage kb (deriveOmaUrl p1u) st with ⟨b1, st1⟩
  have e1f : st1.fetchLog = st.fetchLog := by
    have hh := urlStage_fetchLog kb (deriveOmaUrl p1u) st
    rw [h1] at hh
    exact hh
  have e1w : st1.wdItems = st.wdItems := by
    have hh := urlStage_wdItems kb (deriveOmaUrl p1u) st
    rw [h1] at hh
    exact hh
  cases b1 with
  | false => exact ⟨e1f, e1w⟩
  | true =>
    dsimp only
    rcases h2 : urlStage kb (deriveOmaUrl p2u) st1 with ⟨b2, st2⟩
    have e2f : st2.fetchLog = st1.fetchLog := by
      have hh := urlStage_fetchLog kb (deriveOmaUrl p2u) st1
      rw [h2] at hh
      exact hh
    have e2w : st2.wdItems = st1.wdItems := by
      have hh := urlStage_wdItems kb (deriveOmaUrl p2u) st1
      rw [h2] at hh
      exact hh
    cases b2 with
    | false => exact ⟨e2f.trans e1f, e2w.trans e1w⟩
    | true => exact ⟨e2f.trans e1f, e2w.trans e1w⟩

theorem rowStage3_preserve (kb : KnowledgeBase) (t1 t2 : EntityId) (g1 g2 : GeneId)
    (wd1 wd2 : EntityId) (prot1 prot2 : List EncodesClaim) (st : OmaState) :
    (rowStage3 kb t1 t2 g1 g2 wd1 wd2 prot1 prot2 st).fetchLog = st.fetchLog ∧
    (rowStage3 kb t1 t2 g1 g2 wd1 wd2 prot1 prot2 st).wdItems = st.wdItems := by
  unfold rowStage3
  dsimp only
  cases h1 : extractProt prot1 with
  | none => exact ⟨rfl, rfl⟩
  | some p1 =>
    rcases p1 with ⟨p1w, p1u⟩
    cases h2 : extractProt prot2 with
    | none => exact ⟨rfl, rfl⟩
    | some p2 =>
      rcases p2 with ⟨p2w, p2u⟩
      exact rowStage4_preserve kb t1 t2 g1 g2 wd1 wd2 p1w p2w p1u p2u _

theorem processRowOma_fetchInv (kb : KnowledgeBase) (mapper : GeneId → Option EntityId)
    (t1 t2 : EntityId) (st : OmaState) (row : OrthologRow)
    (h : fetchInv kb mapper st) :
    fetchInv kb mapper (processRowOma kb mapper t1 t2 st row) := by
  unfold processRowOma
  cases h1 : mapper row.gene1 with
  | none => cases h2 : mapper row.gene2 <;> exact h
  | some w1 =>
    cases h2 : mapper row.gene2 with
    | none => exact h
    | some w2 =>
      dsimp only
      have hi1 := fetchStage_fetchInv kb mapper w1 row.gene1 (row.gene1 ++ row.gene2) st h1 h
      rcases hfs1 : fetchStage kb w1 row.gene1 (row.gene1 ++ row.gene2) st with ⟨r1, st1⟩
      rw [hfs1] at hi1
      cases r1 with
      | none => exact hi1
      | some prot1 =>
        dsimp only
        have hi2 := fetchStage_fetchInv kb mapper w2 row.gene2 (row.gene1 ++ row.gene2) st1 h2 hi1
        rcases hfs2 : fetchStage kb w2 row.gene2 (row.gene1 ++ row.gene2) st1 with ⟨r2, st2⟩
        rw [hfs2] at hi2
        cases r2 with
        | none => exact hi2
        | some prot2 =>
          dsimp only
          exact fetchInv_congr kb mapper
            (rowStage3_preserve kb t1 t2 row.gene1 row.gene2 w1 w2 prot1 prot2 st2).1
            (rowStage3_preserve kb t1 t2 row.gene1 row.gene2 w1 w2 prot1 prot2 st2).2 hi2

theorem foldl_row_fetchInv (kb : KnowledgeBase) (mapper : GeneId → Option EntityId)
    (t1 t2 : EntityId) (l : List OrthologRow) (st : OmaState)
    (h : fetchInv kb mapper st) :
    fetchInv kb mapper (l.foldl (processRowOma kb mapper t1 t2) st) := by
  induction l generalizing st with
  | nil => exact h
  | cons r t ih => exact ih _ (processRowOma_fetchInv kb mapper t1 t2 st r h)

theorem processFileOma_fetchInv (kb : KnowledgeBase) (mapper : GeneId → Option EntityId)
    (taxonMap : String → Option EntityId) (st : OmaState) (file : FileInput)
    (h : fetchInv kb mapper st) :
    fetchInv kb mapper (processFileOma kb mapper taxonMap st file) := by
  unfold processFileOma
  split
  · split
    · exact fetchInv_congr kb mapper rfl rfl h
    · split
      · exact h
      · split
        · exact fetchInv_congr kb mapper rfl rfl h
        · split
          · exact fetchInv_congr kb mapper rfl rfl h
          · dsimp only
            exact foldl_row_fetchInv kb mapper _ _ _ _ (fetchInv_congr kb mapper rfl rfl h)
  · exact h

theorem initState_fetchInv (kb : KnowledgeBase) (mapper : GeneId → Option EntityId) :
    fetchInv kb mapper initState := by
  intro g _
  constructor
  · show countOcc g [] ≤ 1
    simp [countOcc]
  · intro hle
    have h0 : countOcc g [] = 0 := rfl
    rw [show countOcc g initState.fetchLog = countOcc g [] from rfl, h0] at hle
    cases hle

theorem runFilesOma_fetchInv (kb : KnowledgeBase) (mapper : GeneId → Option EntityId)
    (taxonMap : String → Option EntityId) (files : List FileInput) :
    fetchInv kb mapper (runFilesOma kb mapper taxonMap files) := by
  unfold runFilesOma
  have hgen : ∀ (l : List FileInput) (st : OmaState), fetchInv kb mapper st →
      fetchInv kb mapper (l.foldl (processFileOma kb mapper taxonMap) st) := by
    intro l
    induction l with
    | nil => intro st hst; exact hst
    | cons f t ih =>
      intro st hst
      exact ih _ (processFileOma_fetchInv kb mapper taxonMap st f hst)
  exact hgen files initState (initState_fetchInv kb mapper)

/-! ## Preservation of the probe-cache invariant (claim C3) -/

theorem probeInv_congr (kb : KnowledgeBase) {st st' : OmaState}
    (h1 : st'.probeLog = st.probeLog) (h2 : st'.omaUrlFound = st.omaUrlFound)
    (h : probeInv kb st) : probeInv kb st' := by
  intro u hu
  rw [h1, h2]
  exact h u hu

theorem urlStage_probeInv (kb : KnowledgeBase) (u : Url) (st : OmaState)
    (h : probeInv kb st) : probeInv kb (urlStage kb u st).2 := by
  rcases urlStage_cases kb u st with ⟨hm, he⟩ | ⟨hm, hl, he⟩ | ⟨hm, hl, he⟩
  · rw [he]
    exact h
  · rw [he]
    intro v hv
    by_cases hvu : v = u
    · subst hvu
      have hcnt0 : countOcc v st.probeLog = 0 := by
        by_contra hne
        exact hm ((h v hv).2 (Nat.one_le_iff_ne_zero.mpr hne))
      constructor
      · show countOcc v (st.probeLog ++ [v]) ≤ 1
        rw [countOcc_append, hcnt0, countOcc_single_eq]
      · intro _
        show v ∈ st.omaUrlFound ++ [v]
        exact List.mem_append.mpr (Or.inr (List.mem_singleton.mpr rfl))
    · have hq : countOcc v (st.probeLog ++ [u]) = countOcc v st.probeLog := by
        rw [countOcc_append, countOcc_single_ne _ _ (fun hh => hvu hh.symm), Nat.add_zero]
      constructor
      · show countOcc v (st.probeLog ++ [u]) ≤ 1
        rw [hq]
        exact (h v hv).1
      · intro hle
        have hle' : 1 ≤ countOcc v st.probeLog := by
          have hle2 : 1 ≤ countOcc v (st.probeLog ++ [u]) := hle
          rwa [hq] at hle2
        show v ∈ st.omaUrlFound ++ [u]
        exact List.mem_append.mpr (Or.inl ((h v hv).2 hle'))
  · rw [he]
    intro v hv
    have hvu : v ≠ u := by
      intro hh
      subst hh
      rw [hv] at hl
      cases hl
    have hq : countOcc v (st.probeLog ++ [u]) = countOcc v st.probeLog := by
      rw [countOcc_append, countOcc_single_ne _ _ (fun hh => hvu hh.symm), Nat.add_zero]
    constructor
    · show countOcc v (st.probeLog ++ [u]) ≤ 1
      rw [hq]
      exact (h v hv).1
    · intro hle
      have hle' : 1 ≤ countOcc v st.probeLog := by
        have hle2 : 1 ≤ countOcc v (st.probeLog ++ [u]) := hle
        rwa [hq] at hle2
      show v ∈ st.omaUrlFound
      exact (h v hv).2 hle'

theorem fetchStage_probeInv (kb : KnowledgeBase) (w : EntityId) (g : GeneId)
    (key : String) (st : OmaState) (h : probeInv kb st) :
    probeInv kb (fetchStage kb w g key st).2 := by
  rcases fetchStage_cases kb w g key st with ⟨cl, _, he⟩ | ⟨_, _, he⟩ | ⟨cl, _, _, he⟩ <;>
    rw [he]
  · exact h
  · exact probeInv_congr kb rfl rfl h
  · exact probeInv_congr kb rfl rfl h

theorem rowStage4_probeInv (kb : KnowledgeBase) (t1 t2 : EntityId) (g1 g2 : GeneId)
    (wd1 wd2 p1w p2w : EntityId) (p1u p2u : String) (st : OmaState)
    (h : probeInv kb st) :
    probeInv kb (rowStage4 kb t1 t2 g1 g2 wd1 wd2 p1w p2w p1u p2u st) := by
  unfold rowStage4
  dsimp only
  have hp1 := urlStage_probeInv kb (deriveOmaUrl p1u) st h
  rcases h1 : urlStage kb (deriveOmaUrl p1u) st with ⟨b1, st1⟩
  rw [h1] at hp1
  cases b1 with
  | false => exact hp1
  | true =>
    dsimp only
    have hp2 := urlStage_probeInv kb (deriveOmaUrl p2u) st1 hp1
    rcases h2 : urlStage kb (deriveOmaUrl p2u) st1 with ⟨b2, st2⟩
    rw [h2] at hp2
    cases b2 with
    | false => exact hp2
    | true =>
      dsimp only
      exact probeInv_congr kb rfl rfl hp2

theorem rowStage3_probeInv (kb : KnowledgeBase) (t1 t2 : EntityId) (g1 g2 : GeneId)
    (wd1 wd2 : EntityId) (prot1 prot2 : List EncodesClaim) (st : OmaState)
    (h : probeInv kb st) :
    probeInv kb (rowStage3 kb t1 t2 g1 g2 wd1 wd2 prot1 prot2 st) := by
  unfold rowStage3
  dsimp only
  cases h1 : extractProt prot1 with
  | none => exact probeInv_congr kb rfl rfl h
  | some p1 =>
    rcases p1 with ⟨p1w, p1u⟩
    cases h2 : extractProt prot2 with
    | none => exact probeInv_congr kb rfl rfl h
    | some p2 =>
      rcases p2 with ⟨p2w, p2u⟩
      exact rowStage4_probeInv kb t1 t2 g1 g2 wd1 wd2 p1w p2w p1u p2u _
        (probeInv_congr kb rfl rfl h)

theorem processRowOma_probeInv (kb : KnowledgeBase) (mapper : GeneId → Option EntityId)
    (t1 t2 : EntityId) (st : OmaState) (row : OrthologRow)
    (h : probeInv kb st) :
    probeInv kb (processRowOma kb mapper t1 t2 st row) := by
  unfold processRowOma
  cases h1 : mapper row.gene1 with
  | none => cases h2 : mapper row.gene2 <;> exact h
  | some w1 =>
    cases h2 : mapper row.gene2 with
    | none => exact h
    | some w2 =>
      dsimp only
      have hi1 := fetchStage_probeInv kb w1 row.gene1 (row.gene1 ++ row.gene2) st h
      rcases hfs1 : fetchStage kb w1 row.gene1 (row.gene1 ++ row.gene2) st with ⟨r1, st1⟩
      rw [hfs1] at hi1
      cases r1 with
      | none => exact hi1
      | some prot1 =>
        dsimp only
        have hi2 := fetchStage_probeInv kb w2 row.gene2 (row.gene1 ++ row.gene2) st1 hi1
        rcases hfs2 : fetchStage kb w2 row.gene2 (row.gene1 ++ row.gene2) st1 with ⟨r2, st2⟩
        rw [hfs2] at hi2
        cases r2 with
        | none => exact hi2
        | some prot2 =>
          dsimp only
          exact rowStage3_probeInv kb t1 t2 row.gene1 row.gene2 w1 w2 prot1 prot2 st2 hi2

theorem foldl_row_probeInv (kb : KnowledgeBase) (mapper : GeneId → Option EntityId)
    (t1 t2 : EntityId) (l : List OrthologRow) (st : OmaState)
    (h : probeInv kb st) :
    probeInv kb (l.foldl (processRowOma kb mapper t1 t2) st) := by
  induction l generalizing st with
  | nil => exact h
  | cons r t ih => exact ih _ (processRowOma_probeInv kb mapper t1 t2 st r h)

theorem processFileOma_probeInv (kb : KnowledgeBase) (mapper : GeneId → Option EntityId)
    (taxonMap : String → Option EntityId) (st : OmaState) (file : FileInput)
    (h : probeInv kb st) :
    probeInv kb (processFileOma kb mapper taxonMap st file) := by
  unfold processFileOma
  split
  · split
    · exact probeInv_congr kb rfl rfl h
    · split
      · exact h
      · split
        · exact probeInv_congr kb rfl rfl h
        · split
          · exact probeInv_congr kb rfl rfl h
          · dsimp only
            exact foldl_row_probeInv kb mapper _ _ _ _ (probeInv_congr kb rfl rfl h)
  · exact h

theorem initState_probeInv (kb : KnowledgeBase) : probeInv kb initState := by
  intro u _
  constructor
  · show countOcc u [] ≤ 1
    simp [countOcc]
  · intro hle
    have h0 : countOcc u [] = 0 := rfl
    rw [show countOcc u initState.probeLog = countOcc u [] from rfl, h0] at hle
    cases hle

theorem runFilesOma_probeInv (kb : KnowledgeBase) (mapper : GeneId → Option EntityId)
    (taxonMap : String → Option EntityId) (files : List FileInput) :
    probeInv kb (runFilesOma kb mapper taxonMap files) := by
  unfold runFilesOma
  have hgen : ∀ (l : List FileInput) (st : OmaState), probeInv kb st →
      probeInv kb (l.foldl (processFileOma kb mapper taxonMap) st) := by
    intro l
    induction l with
    | nil => intro st hst; exact hst
    | cons f t ih =>
      intro st hst
      exact ih _ (processFileOma_probeInv kb mapper taxonMap st f hst)
  exact hgen files initState (initState_probeInv kb)

/-! ## Faithfulness of the two caches (used by claims C8 and C9) -/

theorem fetchStage_fields (kb : KnowledgeBase) (w : EntityId) (g : GeneId) (key : String)
    (st : OmaState) :
    (fetchStage kb w g key st).2.validOrthos = st.validOrthos ∧
    (fetchStage kb w g key st).2.omaUrlFound = st.omaUrlFound ∧
    (fetchStage kb w g key st).2.probeLog = st.probeLog := by
  rcases fetchStage_cases kb w g key st with ⟨cl, _, he⟩ | ⟨_, _, he⟩ | ⟨cl, _, _, he⟩ <;>
    rw [he] <;> exact ⟨rfl, rfl, rfl⟩

theorem fetchStage_fst (kb : KnowledgeBase) (mapper : GeneId → Option EntityId)
    (w : EntityId) (g : GeneId) (key : String) (st : OmaState)
    (hm : mapper g = some w) (h : cacheFaithful kb mapper st) :
    (fetchStage kb w g key st).1 = kb.fetchEncodes w := by
  rcases fetchStage_cases kb w g key st with ⟨cl, hc, he⟩ | ⟨_, hf, he⟩ | ⟨cl, _, hf, he⟩ <;>
    rw [he]
  · rcases h g cl hc with ⟨w', hm', hf'⟩
    obtain rfl : w' = w := Option.some.inj (hm'.symm.trans hm)
    exact hf'.symm
  · exact hf.symm
  · exact hf.symm

theorem fetchStage_cacheFaithful (kb : KnowledgeBase) (mapper : GeneId → Option EntityId)
    (w : EntityId) (g : GeneId) (key : String) (st : OmaState)
    (hm : mapper g = some w) (h : cacheFaithful kb mapper st) :
    cacheFaithful kb mapper (fetchStage kb w g key st).2 := by
  rcases fetchStage_cases kb w g key st with ⟨cl, hc, he⟩ | ⟨_, _, he⟩ | ⟨cl, hc, hf, he⟩ <;>
    rw [he]
  · exact h
  · exact h
  · intro g' cl' hx
    have hx' : alookup (st.wdItems ++ [(g, cl)]) g' = some cl' := hx
    rcases alookup_append_split _ _ _ _ hx' with hx1 | ⟨hx0, hx1⟩
    · exact h g' cl' hx1
    · by_cases hgg : g = g'
      · subst hgg
        rw [alookup_single_eq] at hx1
        obtain rfl : cl = cl' := Option.some.inj hx1
        exact ⟨w, hm, hf⟩
      · rw [show alookup [(g, cl)] g' = none by simp [alookup, hgg]] at hx1
        cases hx1

theorem fetchStage_urlFaithful (kb : KnowledgeBase) (w : EntityId) (g : GeneId)
    (key : String) (st : OmaState) (h : urlFaithful kb st) :
    urlFaithful kb (fetchStage kb w g key st).2 := by
  rcases fetchStage_cases kb w g key st with ⟨cl, _, he⟩ | ⟨_, _, he⟩ | ⟨cl, _, _, he⟩ <;>
    rw [he] <;> exact h

theorem urlStage_urlFaithful (kb : KnowledgeBase) (u : Url) (st : OmaState)
    (h : urlFaithful kb st) : urlFaithful kb (urlStage kb u st).2 := by
  rcases urlStage_cases kb u st with ⟨_, he⟩ | ⟨_, hl, he⟩ | ⟨_, _, he⟩ <;> rw [he]
  · exact h
  · intro v hv
    have hv' : v ∈ st.omaUrlFound ++ [u] := hv
    rcases List.mem_append.mp hv' with hv1 | hv2
    · exact h v hv1
    · rw [List.mem_singleton.mp hv2]
      exact hl
  · exact h

/-- Complete characterization of lines 213-323 (`rowStage4`) for a state
whose URL cache is faithful: either both derived URLs are live and exactly
one validated pair is appended, or one of them is not live and the valid
list is unchanged. -/
theorem rowStage4_char (kb : KnowledgeBase) (t1 t2 : EntityId) (g1 g2 : GeneId)
    (wd1 wd2 p1w p2w : EntityId) (p1u p2u : String) (st : OmaState)
    (hu : urlFaithful kb st) :
    ((kb.urlLive (deriveOmaUrl p1u) = true ∧ kb.urlLive (deriveOmaUrl p2u) = true) ∧
      (rowStage4 kb t1 t2 g1 g2 wd1 wd2 p1w p2w p1u p2u st).validOrthos =
        st.validOrthos ++
          [⟨g1, g2, wd1, wd2, p1w, p2w, p1u, p2u, t1, t2,
            deriveOmaUrl p1u, deriveOmaUrl p2u⟩]) ∨
    ((kb.urlLive (deriveOmaUrl p1u) = false ∨ kb.urlLive (deriveOmaUrl p2u) = false) ∧
      (rowStage4 kb t1 t2 g1 g2 wd1 wd2 p1w p2w p1u p2u st).validOrthos = st.validOrthos) := by
  unfold rowStage4
  dsimp only
  rcases urlStage_cases kb (deriveOmaUrl p1u) st with ⟨hm1, he1⟩ | ⟨hm1, hl1, he1⟩ | ⟨hm1, hl1, he1⟩
  · have hl1 : kb.urlLive (deriveOmaUrl p1u) = true := hu _ hm1
    rw [he1]
    dsimp only
    rcases urlStage_cases kb (deriveOmaUrl p2u) st with ⟨hm2, he2⟩ | ⟨hm2, hl2, he2⟩ | ⟨hm2, hl2, he2⟩
    · have hl2 : kb.urlLive (deriveOmaUrl p2u) = true := hu _ hm2
      rw [he2]
      exact Or.inl ⟨⟨hl1, hl2⟩, rfl⟩
    · rw [he2]
      exact Or.inl ⟨⟨hl1, hl2⟩, rfl⟩
    · rw [he2]
      exact Or.inr ⟨Or.inr hl2, rfl⟩
  · have hu1 : urlFaithful kb
        { st with probeLog := st.probeLog ++ [deriveOmaUrl p1u],
                  omaUrlFound := st.omaUrlFound ++ [deriveOmaUrl p1u] } := by
      have hh := urlStage_urlFaithful kb (deriveOmaUrl p1u) st hu
      rw [he1] at hh
      exact hh
    rw [he1]
    dsimp only
    rcases urlStage_cases kb (deriveOmaUrl p2u)
        { st with probeLog := st.probeLog ++ [deriveOmaUrl p1u],
                  omaUrlFound := st.omaUrlFound ++ [deriveOmaUrl p1u] } with
      ⟨hm2, he2⟩ | ⟨hm2, hl2, he2⟩ | ⟨hm2, hl2, he2⟩
    · have hl2 : kb.urlLive (deriveOmaUrl p2u) = true := hu1 _ hm2
      rw [he2]
      exact Or.inl ⟨⟨hl1, hl2⟩, rfl⟩
    · rw [he2]
      exact Or.inl ⟨⟨hl1, hl2⟩, rfl⟩
    · rw [he2]
      exact Or.inr ⟨Or.inr hl2, rfl⟩
  · rw [he1]
    exact Or.inr ⟨Or.inl hl1, rfl⟩

/-! ## Error-accumulation monotonicity -/

theorem errors_ext_trans {stA stB stC : OmaState}
    (h1 : ∃ l, stB.errors = stA.errors ++ l) (h2 : ∃ l, stC.errors = stB.errors ++ l) :
    ∃ l, stC.errors = stA.errors ++ l := by
  rcases h1 with ⟨l1, h1⟩
  rcases h2 with ⟨l2, h2⟩
  exact ⟨l1 ++ l2, by rw [h2, h1, List.append_assoc]⟩

theorem fetchStage_errors (kb : KnowledgeBase) (w : EntityId) (g : GeneId) (key : String)
    (st : OmaState) : ∃ l, (fetchStage kb w g key st).2.errors = st.errors ++ l := by
  rcases fetchStage_cases kb w g key st with ⟨cl, _, he⟩ | ⟨_, _, he⟩ | ⟨cl, _, _, he⟩ <;> rw [he]
  · exact ⟨[], (List.append_nil _).symm⟩
  · exact ⟨_, rfl⟩
  · exact ⟨[], (List.append_nil _).symm⟩

theorem urlStage_errors (kb : KnowledgeBase) (u : Url) (st : OmaState) :
    ∃ l, (urlStage kb u st).2.errors = st.errors ++ l := by
  rcases urlStage_cases kb u st with ⟨_, he⟩ | ⟨_, _, he⟩ | ⟨_, _, he⟩ <;> rw [he]
  · exact ⟨[], (List.append_nil _).symm⟩
  · exact ⟨[], (List.append_nil _).symm⟩
  · exact ⟨_, rfl⟩

theorem rowStage4_errors (kb : KnowledgeBase) (t1 t2 : EntityId) (g1 g2 : GeneId)
    (wd1 wd2 p1w p2w : EntityId) (p1u p2u : String) (st : OmaState) :
    ∃ l, (rowStage4 kb t1 t2 g1 g2 wd1 wd2 p1w p2w p1u p2u st).errors = st.errors ++ l := by
  unfold rowStage4
  dsimp only
  have e1 := urlStage_errors kb (deriveOmaUrl p1u) st
  rcases h1 : urlStage kb (deriveOmaUrl p1u) st with ⟨b1, st1⟩
  rw [h1] at e1
  cases b1 with
  | false => exact e1
  | true =>
    dsimp only
    have e2 := urlStage_errors kb (deriveOmaUrl p2u) st1
    rcases h2 : urlStage kb (deriveOmaUrl p2u) st1 with ⟨b2, st2⟩
    rw [h2] at e2
    cases b2 with
    | false => exact errors_ext_trans e1 e2
    | true =>
      dsimp only
      exact errors_ext_trans e1 e2

theorem rowStage3_errors (kb : KnowledgeBase) (t1 t2 : EntityId) (g1 g2 : GeneId)
    (wd1 wd2 : EntityId) (prot1 prot2 : List EncodesClaim) (st : OmaState) :
    ∃ l, (rowStage3 kb t1 t2 g1 g2 wd1 wd2 prot1 prot2 st).errors = st.errors ++ l := by
  unfold rowStage3
  dsimp only
  cases h1 : extractProt prot1 with
  | none => exact ⟨_, List.append_assoc _ _ _⟩
  | some p1 =>
    rcases p1 with ⟨p1w, p1u⟩
    cases h2 : extractProt prot2 with
    | none => exact ⟨_, List.append_assoc _ _ _⟩
    | some p2 =>
      rcases p2 with ⟨p2w, p2u⟩
      exact errors_ext_trans ⟨_, rfl⟩
        (rowStage4_errors kb t1 t2 g1 g2 wd1 wd2 p1w p2w p1u p2u _)

theorem processRowOma_errors (kb : KnowledgeBase) (mapper : GeneId → Option EntityId)
    (t1 t2 : EntityId) (st : OmaState) (row : OrthologRow) :
    ∃ l, (processRowOma kb mapper t1 t2 st row).errors = st.errors ++ l := by
  unfold processRowOma
  cases h1 : mapper row.gene1 with
  | none => cases h2 : mapper row.gene2 <;> exact ⟨[], (List.append_nil _).symm⟩
  | some w1 =>
    cases h2 : mapper row.gene2 with
    | none => exact ⟨[], (List.append_nil _).symm⟩
    | some w2 =>
      dsimp only
      have e1 := fetchStage_errors kb w1 row.gene1 (row.gene1 ++ row.gene2) st
      rcases hfs1 : fetchStage kb w1 row.gene1 (row.gene1 ++ row.gene2) st with ⟨r1, st1⟩
      rw [hfs1] at e1
      cases r1 with
      | none => exact e1
      | some prot1 =>
        dsimp only
        have e2 := fetchStage_errors kb w2 row.gene2 (row.gene1 ++ row.gene2) st1
        rcases hfs2 : fetchStage kb w2 row.gene2 (row.gene1 ++ row.gene2) st1 with ⟨r2, st2⟩
        rw [hfs2] at e2
        cases r2 with
        | none => exact errors_ext_trans e1 e2
        | some prot2 =>
          dsimp only
          exact errors_ext_trans (errors_ext_trans e1 e2)
            (rowStage3_errors kb t1 t2 row.gene1 row.gene2 w1 w2 prot1 prot2 st2)

theorem foldl_errors_mem (kb : KnowledgeBase) (mapper : GeneId → Option EntityId)
    (t1 t2 : EntityId) (l : List OrthologRow) (st : OmaState) (x : String × String)
    (hx : x ∈ st.errors) : x ∈ (l.foldl (processRowOma kb mapper t1 t2) st).errors := by
  induction l generalizing st with
  | nil => exact hx
  | cons r t ih =>
    apply ih
    rcases processRowOma_errors kb mapper t1 t2 st r with ⟨l', he⟩
    rw [he]
    exact List.mem_append.mpr (Or.inl hx)

/-! ## Claims C3 and C4 (per-run caching of fetches and probes) -/

/-- Claim C4 (amended): in the sequential cached pipeline (`oma.py`), for
every run and every gene whose knowledge-base fetch succeeds, the entity
fetch for that gene is performed at most once across all rows and files of
the run.  As the counterexample shows, a gene whose fetch raises is
re-fetched on every row where it appears (`wd_items` caches only
successes), and the parallel per-row processor of `omarallel.py` performs
no per-gene caching at all, so the original unconditional claim fails. -/
theorem claim_C4_amended (kb : KnowledgeBase) (mapper : GeneId → Option EntityId)
    (taxonMap : String → Option EntityId) (files : List FileInput) (g : GeneId)
    (hg : goodGene kb mapper g) :
    countOcc g (runFilesOma kb mapper taxonMap files).fetchLog ≤ 1 :=
  ((runFilesOma_fetchInv kb mapper taxonMap files) g hg).1

/-- Witness for C4: gene `A` resolves successfully and is fetched at most
once in a run over a file holding the pair `(A, B)` twice. -/
theorem claim_C4_witness :
    goodGene kbAllGood mapperT "A" ∧
    countOcc "A" (runFilesOma kbAllGood mapperT taxT [fOkTwice]).fetchLog ≤ 1 :=
  ⟨⟨"WA", [goodClaim "PA" "UA"], by decide, by decide⟩,
   claim_C4_amended kbAllGood mapperT taxT [fOkTwice] "A"
     ⟨"WA", [goodClaim "PA" "UA"], by decide, by decide⟩⟩

/-- Counterexample to C4 as stated: with gene `A`'s entity fetch raising,
`oma.py` fetches `A` once per row (twice for two rows), and `omarallel.py`
fetches `A` twice for two rows sharing `gene1` even though every fetch
succeeds — not "exactly one fetch" per gene. -/
theorem claim_C4_counterexample :
    countOcc "A" (runFilesOma kbFetchFailA mapperT taxT [fOkTwice]).fetchLog = 2 ∧
    countOcc "A" (runFilesPar mapperT kbAllGood [fOkTwice]).fetchLog = 2 := by
  constructor <;> decide

/-- Claim C3 (amended): in the sequential pipeline (`oma.py`), for every run
and every URL whose probe reports live, the liveness probe is performed at
most once across all rows and files of the run.  As the counterexample
shows, a URL whose probe reports not-live is probed again on later rows
(`oma_url_found` caches only live results), and the parallel pipeline
probes per row with no cache, so the original claim ("regardless of whether
the first probe reported live or not live") fails. -/
theorem claim_C3_amended (kb : KnowledgeBase) (mapper : GeneId → Option EntityId)
    (taxonMap : String → Option EntityId) (files : List FileInput) (u : Url)
    (hu : kb.urlLive u = true) :
    countOcc u (runFilesOma kb mapper taxonMap files).probeLog ≤ 1 :=
  ((runFilesOma_probeInv kb mapper taxonMap files) u hu).1

/-- Witness for C3: gene `A`'s derived URL is live and is probed at most
once in a run over a file that derives it twice. -/
theorem claim_C3_witness :
    kbAllGood.urlLive urlUA = true ∧
    countOcc urlUA (runFilesOma kbAllGood mapperT taxT [fOkTwice]).probeLog ≤ 1 :=
  ⟨by decide, claim_C3_amended kbAllGood mapperT taxT [fOkTwice] urlUA (by decide)⟩

/-- Counterexample to C3 as stated: with gene `A`'s derived URL dead,
`oma.py` probes it once per row (twice across the two rows of the run), and
`omarallel.py` probes the same live URL once in each of two identical rows. -/
theorem claim_C3_counterexample :
    countOcc urlUA (runFilesOma kbDeadUrlA mapperT taxT [fOkTwice]).probeLog = 2 ∧
    countOcc urlUA (runFilesPar mapperT kbAllGood [fOkTwice]).probeLog = 2 := by
  constructor <;> decide

/-! ## Claim C10 (non-.csv directory entries are ignored) -/

/-- Claim C10: a directory entry whose name does not end in `.csv` is
ignored completely by both pipelines: the state is returned unchanged — the
file is never parsed, contributes no rows, and no error bucket entry of any
kind is recorded for it. -/
theorem claim_C10_holds (file : FileInput)
    (h : endsWithStr file.filename ".csv" = false) :
    (∀ (kb : KnowledgeBase) (mapper : GeneId → Option EntityId)
      (taxonMap : String → Option EntityId) (st : OmaState),
      processFileOma kb mapper taxonMap st file = st) ∧
    (∀ (mapper : GeneId → Option EntityId) (kb : KnowledgeBase) (st : ParState),
      processFilePar mapper kb st file = st) := by
  constructor
  · intro kb mapper taxonMap st
    unfold processFileOma
    rw [h]
    simp
  · intro mapper kb st
    unfold processFilePar
    rw [h]
    simp

/-- Witness for C10: `README.txt` leaves the sequential run state
untouched. -/
theorem claim_C10_witness :
    endsWithStr "README.txt" ".csv" = false ∧
    processFileOma kbAllGood mapperT taxT initState ⟨"README.txt", some [rAB]⟩ = initState :=
  ⟨by decide,
   (claim_C10_holds ⟨"README.txt", some [rAB]⟩ (by decide)).1 kbAllGood mapperT taxT initState⟩

/-! ## Claim C2 (.csv files that do not match the taxon pattern) -/

/-- Claim C2 (amended): in `oma.py`, a `.csv` file whose name does not
match `orthologs_<taxon1>-<taxon2>.csv` is read by the loader but then
skipped entirely (`continue` at line 140): taxon-qualified annotation is
skipped AND no row of the file is filtered, resolved or URL-validated — the
run state is returned unchanged. -/
theorem claim_C2_amended (kb : KnowledgeBase) (mapper : GeneId → Option EntityId)
    (taxonMap : String → Option EntityId) (st : OmaState) (file : FileInput)
    (df : List OrthologRow)
    (hcsv : endsWithStr file.filename ".csv" = true)
    (hrows : file.rows = some df)
    (hpat : matchTaxonSearch file.filename = none) :
    processFileOma kb mapper taxonMap st file = st := by
  unfold processFileOma
  rw [hcsv, hrows, hpat]
  simp

/-- Witness for C2: `foo.csv` (readable, pattern-less) leaves the state
unchanged. -/
theorem claim_C2_witness :
    endsWithStr "foo.csv" ".csv" = true ∧ matchTaxonSearch "foo.csv" = none ∧
    processFileOma kbAllGood mapperT taxT initState fNoPattern = initState :=
  ⟨by decide, by decide,
   claim_C2_amended kbAllGood mapperT taxT initState fNoPattern [⟨"X", "B"⟩]
     (by decide) (by decide) (by decide)⟩

/-- Counterexample to C2 as stated: the pattern-less file `foo.csv` holds a
row whose `gene1` is unmapped; if the row were "loaded, filtered, resolved
and URL-validated" the `gene_not_found` bucket would receive `X`, but the
file is skipped wholesale and the state stays `initState`. -/
theorem claim_C2_counterexample :
    matchTaxonSearch "foo.csv" = none ∧
    processFileOma kbAllGood mapperT taxT initState fNoPattern = initState ∧
    ("gene_not_found", "X") ∉ (processFileOma kbAllGood mapperT taxT initState fNoPattern).errors := by
  refine ⟨by decide, by decide, by decide⟩

/-! ## Claim C1 (the credential check) -/

/-- Claim C1 (amended): the `WDUSER`/`WDPASS` check of `oma.py` is
unconditional.  Whatever the `--write` flag, `main` aborts with a fatal
error before any input file is read (and writes no CSV) when either
credential is missing — including read-only runs — and proceeds past Setup
when both are present. -/
theorem claim_C1_amended (write : Bool) (env : String → Option String)
    (kb : KnowledgeBase) (mapper : GeneId → Option EntityId)
    (taxonMap : String → Option EntityId) (files : List FileInput) :
    (((env "WDUSER").isSome ∧ (env "WDPASS").isSome) →
      mainOma write env kb mapper taxonMap files =
        .ok ⟨runFilesOma kb mapper taxonMap files,
             (runFilesOma kb mapper taxonMap files).validOrthos⟩) ∧
    (¬((env "WDUSER").isSome ∧ (env "WDPASS").isSome) →
      mainOma write env kb mapper taxonMap files =
        .error "WDUSER and WDPASS must be specified in `.env` file or as environment variables") := by
  constructor
  · intro hb
    rcases hb with ⟨h1, h2⟩
    simp [mainOma, h1, h2]
  · intro h
    have hfalse : ((env "WDUSER").isSome && (env "WDPASS").isSome) = false := by
      cases hu : (env "WDUSER").isSome <;> cases hp : (env "WDPASS").isSome <;> simp_all
    simp [mainOma, hfalse]

/-- Witness for C1: with both credentials present the run proceeds (in
write mode here); with an empty environment it aborts. -/
theorem claim_C1_witness :
    ((envFull "WDUSER").isSome ∧ (envFull "WDPASS").isSome) ∧
    mainOma true envFull kbAllGood mapperT taxT [fOkTwice] =
      .ok ⟨runFilesOma kbAllGood mapperT taxT [fOkTwice],
           (runFilesOma kbAllGood mapperT taxT [fOkTwice]).validOrthos⟩ ∧
    mainOma true envEmpty kbAllGood mapperT taxT [fOkTwice] =
      .error "WDUSER and WDPASS must be specified in `.env` file or as environment variables" :=
  ⟨⟨by decide, by decide⟩,
   (claim_C1_amended true envFull kbAllGood mapperT taxT [fOkTwice]).1 ⟨by decide, by decide⟩,
   (claim_C1_amended true envEmpty kbAllGood mapperT taxT [fOkTwice]).2 (by decide)⟩

/-- Counterexample to C1 as stated: a READ-ONLY run (write flag absent)
with no credentials in the environment does not proceed — `main` raises the
fatal `ValueError` before any file is read, so Setup does require the two
credentials even in read-only mode. -/
theorem claim_C1_counterexample :
    mainOma false envEmpty kbAllGood mapperT taxT [fOkTwice] =
      .error "WDUSER and WDPASS must be specified in `.env` file or as environment variables" := by
  rfl

/-! ## Claim C7 (the gene_not_found filter) -/

/-- Claim C7 (amended): a loaded row reaches protein resolution iff both of
its genes are mapped, in both pipelines.  In the sequential pipeline every
unmapped identifier occurring in either column — including `gene2` of a row
whose `gene1` is also unmapped — is recorded under `gene_not_found`.  In the
parallel pipeline the per-row check short-circuits: when `gene1` is
unmapped, only `gene1` is recorded (under `genes_not_found`) and the row's
`gene2` is not; `gene2` is checked and recorded only when `gene1` is
mapped; no fetch happens for a row with an unmapped gene, and a fully
mapped row always attempts `gene1`'s fetch. -/
theorem claim_C7_amended :
    (∀ (kb : KnowledgeBase) (mapper : GeneId → Option EntityId)
      (taxonMap : String → Option EntityId) (st : OmaState) (fname : String)
      (df : List OrthologRow) (tA tB : String) (wA wB : EntityId) (g : GeneId),
      endsWithStr fname ".csv" = true →
      matchTaxonSearch fname = some (tA, tB) →
      taxonMap tA = some wA → taxonMap tB = some wB →
      mapper g = none →
      (g ∈ df.map OrthologRow.gene1 ∨ g ∈ df.map OrthologRow.gene2) →
      ("gene_not_found", g) ∈ (processFileOma kb mapper taxonMap st ⟨fname, some df⟩).errors) ∧
    (∀ (mapper : GeneId → Option EntityId) (kb : KnowledgeBase) (row : OrthologRow),
      mapper row.gene1 = none →
      process_row mapper kb row = ⟨none, [("genes_not_found", row.gene1)], [], []⟩) ∧
    (∀ (mapper : GeneId → Option EntityId) (kb : KnowledgeBase) (row : OrthologRow)
      (w1 : EntityId), mapper row.gene1 = some w1 → mapper row.gene2 = none →
      process_row mapper kb row = ⟨none, [("genes_not_found", row.gene2)], [], []⟩) ∧
    (∀ (mapper : GeneId → Option EntityId) (kb : KnowledgeBase) (row : OrthologRow)
      (w1 w2 : EntityId), mapper row.gene1 = some w1 → mapper row.gene2 = some w2 →
      row.gene1 ∈ (process_row mapper kb row).fetchLog) := by
  refine ⟨?_, ?_, ?_, ?_⟩
  · intro kb mapper taxonMap st fname df tA tB wA wB g hcsv hpat htA htB hgnone hcol
    unfold processFileOma
    rw [if_pos hcsv]
    dsimp only
    rw [hpat]
    dsimp only
    rw [htA]
    dsimp only
    rw [htB]
    dsimp only
    apply foldl_errors_mem
    refine List.mem_append.mpr (Or.inr ?_)
    rcases hcol with hcol1 | hcol2
    · refine List.mem_append.mpr (Or.inl ?_)
      refine List.mem_map.mpr ⟨g, ?_, rfl⟩
      refine List.mem_filter.mpr ⟨hcol1, ?_⟩
      rw [hgnone]
      rfl
    · refine List.mem_append.mpr (Or.inr ?_)
      refine List.mem_map.mpr ⟨g, ?_, rfl⟩
      refine List.mem_filter.mpr ⟨hcol2, ?_⟩
      rw [hgnone]
      rfl
  · intro mapper kb row h1
    simp [process_row, h1]
  · intro mapper kb row w1 h1 h2
    simp [process_row, h1, h2]
  · intro mapper kb row w1 w2 h1 h2
    unfold process_row
    dsimp only
    rw [h1]
    dsimp only
    rw [h2]
    dsimp only
    cases hf1 : kb.fetchEncodes w1 with
    | none => exact List.mem_singleton.mpr rfl
    | some c1 =>
      dsimp only
      cases hf2 : kb.fetchEncodes w2 with
      | none => exact List.mem_cons_self _ _
      | some c2 =>
        dsimp only
        cases hx1 : extractProt c1 with
        | none => exact List.mem_cons_self _ _
        | some p1 =>
          rcases p1 with ⟨p1w, p1u⟩
          dsimp only
          cases hx2 : extractProt c2 with
          | none => exact List.mem_cons_self _ _
          | some p2 =>
            rcases p2 with ⟨p2w, p2u⟩
            dsimp only
            cases hl1 : kb.urlLive (deriveOmaUrl p1u)
            · simp
            · cases hl2 : kb.urlLive (deriveOmaUrl p2u) <;> simp

/-- Witness for C7: in a file containing the single row `(X, B)` with `X`
unmapped, the sequential pipeline records `X` under `gene_not_found`. -/
theorem claim_C7_witness :
    mapperT "X" = none ∧
    ("gene_not_found", "X") ∈
      (processFileOma kbAllGood mapperT taxT initState
        ⟨"orthologs_1-2.csv", some [⟨"X", "B"⟩]⟩).errors :=
  ⟨by decide,
   claim_C7_amended.1 kbAllGood mapperT taxT initState "orthologs_1-2.csv" [⟨"X", "B"⟩]
     "1" "2" "T1" "T2" "X" (by decide) (by decide) (by decide) (by decide) (by decide)
     (Or.inl (by decide))⟩

/-- Counterexample to C7 as stated: in `omarallel.py`, a row whose two
genes are both unmapped records only `gene1`; the unmapped `gene2` is
recorded in no bucket at all. -/
theorem claim_C7_counterexample :
    (process_row mapperT kbAllGood ⟨"X", "Y"⟩).errors = [("genes_not_found", "X")] ∧
    ("genes_not_found", "Y") ∉ (process_row mapperT kbAllGood ⟨"X", "Y"⟩).errors ∧
    ("gene_not_found", "Y") ∉ (process_row mapperT kbAllGood ⟨"X", "Y"⟩).errors := by
  refine ⟨by decide, by decide, by decide⟩

/-! ## Claim C5 (which resolution failures fill the pairs-lost bucket) -/

/-- Claim C5 (amended): in `oma.py` a row whose gene fails resolution is
always rejected, but the buckets are filled differently by step: an
entity-fetch failure (claim absent or fetch raised, lines 167-191) records
BOTH `missing_encodes_infos` for the gene AND
`pairs_lost_due_to_missing_prot_info` keyed by `gene1 + gene2`; an
extraction failure (lines 199-211) records ONLY `missing_encodes_infos`.
The parallel variant records only `missing_encodes_infos` for a fetch
failure and never fills a pairs bucket. -/
theorem claim_C5_amended (kb : KnowledgeBase) (mapper : GeneId → Option EntityId)
    (t1 t2 : EntityId) :
    (∀ (st : OmaState) (row : OrthologRow) (w1 w2 : EntityId),
      mapper row.gene1 = some w1 → mapper row.gene2 = some w2 →
      alookup st.wdItems row.gene1 = none → kb.fetchEncodes w1 = none →
      processRowOma kb mapper t1 t2 st row =
        { st with fetchLog := st.fetchLog ++ [row.gene1],
                  errors := st.errors ++ [("missing_encodes_infos", row.gene1),
                    ("pairs_lost_due_to_missing_prot_info", row.gene1 ++ row.gene2)] }) ∧
    (∀ (st : OmaState) (row : OrthologRow) (w1 w2 : EntityId) (c1 c2 : List EncodesClaim),
      mapper row.gene1 = some w1 → mapper row.gene2 = some w2 →
      row.gene1 ≠ row.gene2 →
      alookup st.wdItems row.gene1 = none → kb.fetchEncodes w1 = some c1 →
      alookup st.wdItems row.gene2 = none → kb.fetchEncodes w2 = some c2 →
      extractProt c1 = none →
      processRowOma kb mapper t1 t2 st row =
        { st with fetchLog := st.fetchLog ++ [row.gene1, row.gene2],
                  wdItems := st.wdItems ++ [(row.gene1, c1), (row.gene2, c2)],
                  errors := st.errors
                    ++ ((if 1 < c1.length then [("more_than_1_encodes", row.gene1)] else [])
                       ++ (if 1 < c2.length then [("more_than_1_encodes", row.gene2)] else []))
                    ++ [("missing_encodes_infos", row.gene1)] }) ∧
    (∀ (row : OrthologRow) (w1 w2 : EntityId),
      mapper row.gene1 = some w1 → mapper row.gene2 = some w2 →
      kb.fetchEncodes w1 = none →
      process_row mapper kb row =
        ⟨none, [("missing_encodes_infos", row.gene1)], [row.gene1], []⟩) := by
  refine ⟨?_, ?_, ?_⟩
  · intro st row w1 w2 h1 h2 hc1 hf1
    unfold processRowOma
    rw [h1, h2]
    dsimp only
    rcases fetchStage_cases kb w1 row.gene1 (row.gene1 ++ row.gene2) st with
      ⟨cl, hc, he⟩ | ⟨hc, hf, he⟩ | ⟨cl, hc, hf, he⟩
    · rw [hc1] at hc
      cases hc
    · rw [he]
    · rw [hf1] at hf
      cases hf
  · intro st row w1 w2 c1 c2 h1 h2 hne hc1 hf1 hc2 hf2 hx1
    have hc2' : alookup (st.wdItems ++ [(row.gene1, c1)]) row.gene2 = none := by
      rw [alookup_append_of_none _ _ _ hc2]
      simp [alookup, hne]
    simp only [processRowOma, fetchStage, rowStage3, h1, h2, hc1, hf1, hc2', hf2, hx1]
    simp [List.append_assoc]
  · intro row w1 w2 h1 h2 hf1
    simp [process_row, h1, h2, hf1]

/-- Witness for C5: a fetch failure on gene `A` fills both buckets and
rejects the row. -/
theorem claim_C5_witness :
    processRowOma kbFetchFailA mapperT "T1" "T2" initState rAB =
      { initState with
        fetchLog := initState.fetchLog ++ [rAB.gene1],
        errors := initState.errors ++ [("missing_encodes_infos", rAB.gene1),
          ("pairs_lost_due_to_missing_prot_info", rAB.gene1 ++ rAB.gene2)] } :=
  (claim_C5_amended kbFetchFailA mapperT "T1" "T2").1 initState rAB "WA" "WB"
    (by decide) (by decide) (by decide) (by decide)

/-- Counterexample to C5 as stated: gene `A`'s entity fetch succeeds but
extraction from its claim fails; the run records `missing_encodes_infos`
only — the pair key `AB` appears in no bucket — although the claim demands
both buckets be filled for every resolution failure. -/
theorem claim_C5_counterexample :
    (runFilesOma kbExtractFailA mapperT taxT [fOkOnce]).errors =
      [("missing_encodes_infos", "A")] ∧
    ("pairs_lost_due_to_missing_prot_info", "AB") ∉
      (runFilesOma kbExtractFailA mapperT taxT [fOkOnce]).errors ∧
    (runFilesOma kbExtractFailA mapperT taxT [fOkOnce]).validOrthos = [] := by
  refine ⟨by decide, by decide, by decide⟩

/-! ## Claim C6 (the multiple-encodes warning) -/

/-- Claim C6, evaluated at the failing input: in `omarallel.py` gene `A`'s
entity carries two encodes claims and the row fully succeeds; `process_row`
records `more_than_1_encodes` locally (line 72) but its success return
(line 116) sends back `"errors": {}`, so the warning is discarded and the
run's final aggregated buckets are empty even though validated pairs were
produced.  The sequential `oma.py` pipeline keeps the same warning in its
global `errors`, confirming the claim (and the spec) describe the intended
behavior and line 116 is the slip. -/
theorem claim_C6_code_bug :
    (kbTwoEncodesA.fetchEncodes "WA").map List.length = some 2 ∧
    (process_row mapperT kbTwoEncodesA rAB).data.isSome = true ∧
    (process_row mapperT kbTwoEncodesA rAB).errors = [] ∧
    (runFilesPar mapperT kbTwoEncodesA [fOkTwice]).combinedErrors = [] ∧
    (runFilesPar mapperT kbTwoEncodesA [fOkTwice]).validOrthos.length = 2 ∧
    ("more_than_1_encodes", "A") ∈ (runFilesOma kbTwoEncodesA mapperT taxT [fOkTwice]).errors := by
  refine ⟨by decide, by decide, by decide, by decide, by decide, by decide⟩

/-! ## Claim C8 (a ValidatedPair iff full success, exactly once) -/

/-- Claim C8: in the sequential pipeline, for every row processed from a
state whose two caches are faithful (every cached claim list is a true
fetch result and every cached URL probed live — true of every reachable
state), exactly one `ValidatedPair` is appended when both genes resolve and
both derived URLs are live, and the valid list is unchanged otherwise; in
the parallel pipeline `process_row` returns a data record iff the same
success condition holds (the aggregator then appends one record per
successful row). -/
theorem claim_C8_holds (kb : KnowledgeBase) (mapper : GeneId → Option EntityId)
    (t1 t2 : EntityId) :
    (∀ (st : OmaState) (row : OrthologRow),
      cacheFaithful kb mapper st → urlFaithful kb st →
      ((rowSucceedsB kb mapper row = true →
        ∃ p, (processRowOma kb mapper t1 t2 st row).validOrthos = st.validOrthos ++ [p]) ∧
       (rowSucceedsB kb mapper row = false →
        (processRowOma kb mapper t1 t2 st row).validOrthos = st.validOrthos))) ∧
    (∀ row : OrthologRow,
      (process_row mapper kb row).data.isSome = rowSucceedsB kb mapper row) := by
  constructor
  · intro st row hcF huF
    unfold processRowOma
    cases h1 : mapper row.gene1 with
    | none =>
      have hS : rowSucceedsB kb mapper row = false := by
        unfold rowSucceedsB
        rw [h1]
      refine ⟨fun ht => ?_, fun _ => ?_⟩
      · rw [hS] at ht
        cases ht
      · cases h2 : mapper row.gene2 <;> rfl
    | some w1 =>
      cases h2 : mapper row.gene2 with
      | none =>
        have hS : rowSucceedsB kb mapper row = false := by
          unfold rowSucceedsB
          rw [h1]
          dsimp only
          rw [h2]
        exact ⟨fun ht => (by rw [hS] at ht; cases ht), fun _ => rfl⟩
      | some w2 =>
        dsimp only
        have hfst1 := fetchStage_fst kb mapper w1 row.gene1 (row.gene1 ++ row.gene2) st h1 hcF
        have hcf1 := fetchStage_cacheFaithful kb mapper w1 row.gene1 (row.gene1 ++ row.gene2) st h1 hcF
        have huf1 := fetchStage_urlFaithful kb w1 row.gene1 (row.gene1 ++ row.gene2) st huF
        have hfields1 := fetchStage_fields kb w1 row.gene1 (row.gene1 ++ row.gene2) st
        rcases hfs1 : fetchStage kb w1 row.gene1 (row.gene1 ++ row.gene2) st with ⟨r1, st1⟩
        rw [hfs1] at hfst1 hcf1 huf1 hfields1
        dsimp only at hfst1 hcf1 huf1 hfields1
        cases hf1 : kb.fetchEncodes w1 with
        | none =>
          rw [hf1] at hfst1
          subst hfst1
          dsimp only
          have hS : rowSucceedsB kb mapper row = false := by
            unfold rowSucceedsB
            rw [h1]
            dsimp only
            rw [h2]
            dsimp only
            rw [hf1]
          exact ⟨fun ht => (by rw [hS] at ht; cases ht), fun _ => hfields1.1⟩
        | some c1 =>
          rw [hf1] at hfst1
          subst hfst1
          dsimp only
          have hfst2 := fetchStage_fst kb mapper w2 row.gene2 (row.gene1 ++ row.gene2) st1 h2 hcf1
          have hcf2 := fetchStage_cacheFaithful kb mapper w2 row.gene2 (row.gene1 ++ row.gene2) st1 h2 hcf1
          have huf2 := fetchStage_urlFaithful kb w2 row.gene2 (row.gene1 ++ row.gene2) st1 huf1
          have hfields2 := fetchStage_fields kb w2 row.gene2 (row.gene1 ++ row.gene2) st1
          rcases hfs2 : fetchStage kb w2 row.gene2 (row.gene1 ++ row.gene2) st1 with ⟨r2, st2⟩
          rw [hfs2] at hfst2 hcf2 huf2 hfields2
          dsimp only at hfst2 hcf2 huf2 hfields2
          cases hf2 : kb.fetchEncodes w2 with
          | none =>
            rw [hf2] at hfst2
            subst hfst2
            dsimp only
            have hS : rowSucceedsB kb mapper row = false := by
              unfold rowSucceedsB
              rw [h1]
              dsimp only
              rw [h2]
              dsimp only
              rw [hf1]
              dsimp only
              rw [hf2]
            exact ⟨fun ht => (by rw [hS] at ht; cases ht),
                   fun _ => hfields2.1.trans hfields1.1⟩
          | some c2 =>
            rw [hf2] at hfst2
            subst hfst2
            dsimp only
            unfold rowStage3
            dsimp only
            cases hx1 : extractProt c1 with
            | none =>
              have hS : rowSucceedsB kb mapper row = false := by
                unfold rowSucceedsB
                rw [h1]
                dsimp only
                rw [h2]
                dsimp only
                rw [hf1]
                dsimp only
                rw [hf2]
                dsimp only
                rw [hx1]
              exact ⟨fun ht => (by rw [hS] at ht; cases ht),
                     fun _ => hfields2.1.trans hfields1.1⟩
            | some p1 =>
              rcases p1 with ⟨p1w, p1u⟩
              dsimp only
              cases hx2 : extractProt c2 with
              | none =>
                have hS : rowSucceedsB kb mapper row = false := by
                  unfold rowSucceedsB
                  rw [h1]
                  dsimp only
                  rw [h2]
                  dsimp only
                  rw [hf1]
                  dsimp only
                  rw [hf2]
                  dsimp only
                  rw [hx1]
                  dsimp only
                  rw [hx2]
                exact ⟨fun ht => (by rw [hS] at ht; cases ht),
                       fun _ => hfields2.1.trans hfields1.1⟩
              | some p2 =>
                rcases p2 with ⟨p2w, p2u⟩
                dsimp only
                rcases rowStage4_char kb t1 t2 row.gene1 row.gene2 w1 w2 p1w p2w p1u p2u
                    { st2 with errors := st2.errors ++
                      ((if 1 < c1.length then [("more_than_1_encodes", row.gene1)] else []) ++
                       (if 1 < c2.length then [("more_than_1_encodes", row.gene2)] else [])) }
                    huf2 with ⟨⟨hl1, hl2⟩, hv⟩ | ⟨hdead, hv⟩
                · have hS : rowSucceedsB kb mapper row = true := by
                    unfold rowSucceedsB
                    rw [h1]
                    dsimp only
                    rw [h2]
                    dsimp only
                    rw [hf1]
                    dsimp only
                    rw [hf2]
                    dsimp only
                    rw [hx1]
                    dsimp only
                    rw [hx2]
                    dsimp only
                    rw [hl1, hl2]
                    rfl
                  refine ⟨fun _ => ⟨⟨row.gene1, row.gene2, w1, w2, p1w, p2w, p1u, p2u,
                      t1, t2, deriveOmaUrl p1u, deriveOmaUrl p2u⟩, ?_⟩,
                    fun hfalse => (by rw [hS] at hfalse; cases hfalse)⟩
                  rw [hv]
                  exact congrArg (fun l => l ++ _) (hfields2.1.trans hfields1.1)
                · have hS : rowSucceedsB kb mapper row = false := by
                    unfold rowSucceedsB
                    rw [h1]
                    dsimp only
                    rw [h2]
                    dsimp only
                    rw [hf1]
                    dsimp only
                    rw [hf2]
                    dsimp only
                    rw [hx1]
                    dsimp only
                    rw [hx2]
                    dsimp only
                    rcases hdead with hd | hd <;> rw [hd] <;> simp
                  refine ⟨fun ht => (by rw [hS] at ht; cases ht), fun _ => ?_⟩
                  rw [hv]
                  exact hfields2.1.trans hfields1.1
  · intro row
    unfold process_row rowSucceedsB
    dsimp only
    cases h1 : mapper row.gene1 with
    | none => rfl
    | some w1 =>
      dsimp only
      cases h2 : mapper row.gene2 with
      | none => rfl
      | some w2 =>
        dsimp only
        cases hf1 : kb.fetchEncodes w1 with
        | none => rfl
        | some c1 =>
          dsimp only
          cases hf2 : kb.fetchEncodes w2 with
          | none => rfl
          | some c2 =>
            dsimp only
            cases hx1 : extractProt c1 with
            | none => rfl
            | some p1 =>
              rcases p1 with ⟨p1w, p1u⟩
              dsimp only
              cases hx2 : extractProt c2 with
              | none => rfl
              | some p2 =>
                rcases p2 with ⟨p2w, p2u⟩
                dsimp only
                cases hl1 : kb.urlLive (deriveOmaUrl p1u) with
                | false => rfl
                | true => cases hl2 : kb.urlLive (deriveOmaUrl p2u) <;> rfl

/-- Claim C9: a row whose derived `url1` fails the liveness probe is
rejected immediately: `oma_url_not_found` receives `url1`, no pair is
appended, and the probe log of the row gains exactly `url1` — `url2` is
never probed for that row.  Stated for the sequential pipeline over any
faithfully cached state (first conjunct, where the final probe log is
exactly the incoming one extended by `url1`), and for the parallel
`process_row` (second conjunct, whose per-row probe log is `[url1]`). -/
theorem claim_C9_holds (kb : KnowledgeBase) (mapper : GeneId → Option EntityId)
    (t1 t2 : EntityId) :
    (∀ (st : OmaState) (row : OrthologRow) (w1 w2 : EntityId)
      (c1 c2 : List EncodesClaim) (p1w p2w : EntityId) (p1u p2u : String),
      cacheFaithful kb mapper st →
      mapper row.gene1 = some w1 → mapper row.gene2 = some w2 →
      kb.fetchEncodes w1 = some c1 → kb.fetchEncodes w2 = some c2 →
      extractProt c1 = some (p1w, p1u) → extractProt c2 = some (p2w, p2u) →
      deriveOmaUrl p1u ∉ st.omaUrlFound →
      kb.urlLive (deriveOmaUrl p1u) = false →
      ((processRowOma kb mapper t1 t2 st row).probeLog =
          st.probeLog ++ [deriveOmaUrl p1u] ∧
       ("oma_url_not_found", deriveOmaUrl p1u) ∈ (processRowOma kb mapper t1 t2 st row).errors ∧
       (processRowOma kb mapper t1 t2 st row).validOrthos = st.validOrthos)) ∧
    (∀ (row : OrthologRow) (w1 w2 : EntityId) (c1 c2 : List EncodesClaim)
      (p1w p2w : EntityId) (p1u p2u : String),
      mapper row.gene1 = some w1 → mapper row.gene2 = some w2 →
      kb.fetchEncodes w1 = some c1 → kb.fetchEncodes w2 = some c2 →
      extractProt c1 = some (p1w, p1u) → extractProt c2 = some (p2w, p2u) →
      kb.urlLive (deriveOmaUrl p1u) = false →
      process_row mapper kb row =
        ⟨none,
         ((if 1 < c1.length then [("more_than_1_encodes", row.gene1)] else []) ++
          (if 1 < c2.length then [("more_than_1_encodes", row.gene2)] else [])) ++
           [("oma_url_not_found", deriveOmaUrl p1u)],
         [row.gene1, row.gene2], [deriveOmaUrl p1u]⟩) := by
  constructor
  · intro st row w1 w2 c1 c2 p1w p2w p1u p2u hcF h1 h2 hf1 hf2 hx1 hx2 hnm hdead
    unfold processRowOma
    rw [h1, h2]
    dsimp only
    have hfst1 := fetchStage_fst kb mapper w1 row.gene1 (row.gene1 ++ row.gene2) st h1 hcF
    have hcf1 := fetchStage_cacheFaithful kb mapper w1 row.gene1 (row.gene1 ++ row.gene2) st h1 hcF
    have hfields1 := fetchStage_fields kb w1 row.gene1 (row.gene1 ++ row.gene2) st
    rcases hfs1 : fetchStage kb w1 row.gene1 (row.gene1 ++ row.gene2) st with ⟨r1, st1⟩
    rw [hfs1] at hfst1 hcf1 hfields1
    dsimp only at hfst1 hcf1 hfields1
    rw [hf1] at hfst1
    subst hfst1
    dsimp only
    have hfst2 := fetchStage_fst kb mapper w2 row.gene2 (row.gene1 ++ row.gene2) st1 h2 hcf1
    have hfields2 := fetchStage_fields kb w2 row.gene2 (row.gene1 ++ row.gene2) st1
    rcases hfs2 : fetchStage kb w2 row.gene2 (row.gene1 ++ row.gene2) st1 with ⟨r2, st2⟩
    rw [hfs2] at hfst2 hfields2
    dsimp only at hfst2 hfields2
    rw [hf2] at hfst2
    subst hfst2
    dsimp only
    unfold rowStage3
    dsimp only
    rw [hx1]
    dsimp only
    rw [hx2]
    dsimp only
    unfold rowStage4
    dsimp only
    have hnm3 : deriveOmaUrl p1u ∉
        ({ st2 with errors := st2.errors ++
          ((if 1 < c1.length then [("more_than_1_encodes", row.gene1)] else []) ++
           (if 1 < c2.length then [("more_than_1_encodes", row.gene2)] else [])) } :
            OmaState).omaUrlFound := by
      show deriveOmaUrl p1u ∉ st2.omaUrlFound
      rw [hfields2.2.1, hfields1.2.1]
      exact hnm
    rcases urlStage_cases kb (deriveOmaUrl p1u)
        { st2 with errors := st2.errors ++
          ((if 1 < c1.length then [("more_than_1_encodes", row.gene1)] else []) ++
           (if 1 < c2.length then [("more_than_1_encodes", row.gene2)] else [])) } with
      ⟨hm, he⟩ | ⟨hm, hl, he⟩ | ⟨hm, hl, he⟩
    · exact absurd hm hnm3
    · rw [hdead] at hl
      cases hl
    · rw [he]
      dsimp only
      refine ⟨?_, ?_, ?_⟩
      · show st2.probeLog ++ [deriveOmaUrl p1u] = st.probeLog ++ [deriveOmaUrl p1u]
        rw [hfields2.2.2, hfields1.2.2]
      · exact List.mem_append.mpr (Or.inr (List.mem_singleton.mpr rfl))
      · show st2.validOrthos = st.validOrthos
        rw [hfields2.1, hfields1.1]
  · intro row w1 w2 c1 c2 p1w p2w p1u p2u h1 h2 hf1 hf2 hx1 hx2 hdead
    simp [process_row, h1, h2, hf1, hf2, hx1, hx2, hdead]

/-- Witness for C9: with gene `A`'s derived URL dead, the row is rejected,
`oma_url_not_found` receives that URL, and it is the only probe made. -/
theorem claim_C9_witness :
    kbDeadUrlA.urlLive (deriveOmaUrl "UA") = false ∧
    ((processRowOma kbDeadUrlA mapperT "T1" "T2" initState rAB).probeLog =
        initState.probeLog ++ [deriveOmaUrl "UA"] ∧
     ("oma_url_not_found", deriveOmaUrl "UA") ∈
        (processRowOma kbDeadUrlA mapperT "T1" "T2" initState rAB).errors ∧
     (processRowOma kbDeadUrlA mapperT "T1" "T2" initState rAB).validOrthos =
        initState.validOrthos) :=
  ⟨by decide,
   (claim_C9_holds kbDeadUrlA mapperT "T1" "T2").1 initState rAB "WA" "WB"
     [goodClaim "PA" "UA"] [goodClaim "PB" "UB"] "PA" "PB" "UA" "UB"
     (fun g cl h => by simp [initState, alookup] at h)
     (by decide) (by decide) (by decide) (by decide) (by decide) (by decide)
     (by decide) (by decide)⟩

/-- Witness for C8: a fully successful row appends exactly one pair from
the initial (trivially faithful) state. -/
theorem claim_C8_witness :
    rowSucceedsB kbAllGood mapperT rAB = true ∧
    (∃ p, (processRowOma kbAllGood mapperT "T1" "T2" initState rAB).validOrthos =
      initState.validOrthos ++ [p]) ∧
    (process_row mapperT kbAllGood rAB).data.isSome = rowSucceedsB kbAllGood mapperT rAB :=
  ⟨by decide,
   ((claim_C8_holds kbAllGood mapperT "T1" "T2").1 initState rAB
     (fun g cl h => by simp [initState, alookup] at h)
     (fun u h => by simp [initState] at h)).1 (by decide),
   (claim_C8_holds kbAllGood mapperT "T1" "T2").2 rAB⟩

end OrthoBot


